import Mathlib

/-
Verification of the Team-Social-Partner repository: a multi-platform
social automation system (Supabase schema + Next.js dashboard pages,
with a designed-but-unimplemented scheduler / rule-engine core).

The database schema and the frontend pages are embedded directly from
the source.  The Publish Scheduler, Automation Rule Engine, Platform
Adapter registry and Execution Ledger have no executable code in the
repository; those parts are modelled from the specification document,
and each such definition is marked "Modelled from the spec:".
-/

namespace TeamSocial

/-! ## Embedding of the database schema (source: supabase schema, part_000) -/

/-- The CHECK constraint on scheduled_posts.status, embedded from the schema:
status IN (scheduled, published, failed, cancelled). -/
def scheduledPostStatusCheck (s : String) : Bool :=
  s == "scheduled" || s == "published" || s == "failed" || s == "cancelled"

/-- The status values the specification requires for a ScheduledPost. -/
def specScheduledPostStatuses : List String :=
  ["scheduled", "publishing", "published", "failed", "cancelled"]

/-- A database row: an opaque bag of column values plus the updated_at column
that the audit trigger manages. -/
structure DbRow where
  fields : List (String × String)
  updated_at : Nat
deriving DecidableEq, Repr

/-- The trigger function update_updated_at_column from the schema:
it sets NEW.updated_at to NOW() and returns NEW, unconditionally. -/
def update_updated_at_column (now : Nat) (new : DbRow) : DbRow :=
  { new with updated_at := now }

/-- The six tables to which the schema attaches the BEFORE UPDATE trigger. -/
def updatedAtTriggerTables : List String :=
  ["tenants", "users", "social_accounts", "content_templates",
   "scheduled_posts", "automation_rules"]

/-- Effect of an UPDATE on a row as the schema configures it: on the six
triggered tables the BEFORE UPDATE trigger rewrites NEW via
update_updated_at_column; other tables store NEW as given. -/
def applyBeforeUpdateTrigger (table : String) (now : Nat) (new : DbRow) : DbRow :=
  if table ∈ updatedAtTriggerTables then update_updated_at_column now new else new

/-! ## Embedding of the account-manager page (source: frontend/pages/accounts/index.tsx) -/

/-- A user entry as displayed by the account-manager page. -/
structure UiUser where
  id : Nat
  username : String
  nickname : String
  platform : String
deriving DecidableEq, Repr

/-- An HTTP response as seen by fetch when the request completes
(any status code, including 4xx and 5xx, resolves the promise). -/
structure HttpResponse where
  status : Nat
  body : String
deriving DecidableEq, Repr

/-- The deleteUser handler of the page: fetch DELETE, then on any resolved
response (the then-callback discards the response object, so the status code
is never inspected) the displayed list is replaced by
users.filter(u => u.id !== id); on a rejected promise (network error)
no state update runs. -/
def deleteUser (result : Except String HttpResponse) (users : List UiUser)
    (i : Nat) : List UiUser :=
  match result with
  | Except.ok _ => users.filter (fun u => u.id != i)
  | Except.error _ => users

/-! ## The scheduler / rule-engine core, modelled from the specification
(no executable core exists in the repository source). -/

/-- Modelled from the spec: the ScheduledPost status values of the design,
including the claim state publishing that the schema CHECK omits. -/
inductive PostStatus where
  | scheduled
  | publishing
  | published
  | failed
  | cancelled
deriving DecidableEq, Repr

/-- Modelled from the spec: the typed result of an Adapter capability
operation — Ok(remote_id) or one of the four typed failures. -/
inductive DispatchOutcome where
  | ok (remoteId : String)
  | authExpired
  | rateLimited (retryAfter : Nat)
  | platformRejected (reason : String)
  | transient (cause : String)
deriving DecidableEq, Repr

/-- Whether an outcome is a success. -/
def DispatchOutcome.isOk : DispatchOutcome → Bool
  | .ok _ => true
  | _ => false

/-- Whether an outcome is the non-retryable platform rejection. -/
def DispatchOutcome.isRejected : DispatchOutcome → Bool
  | .platformRejected _ => true
  | _ => false

/-- Modelled from the spec error taxonomy: AuthExpired, RateLimited and
Transient are retryable; Ok terminates and PlatformRejected is non-retryable. -/
def DispatchOutcome.retryable : DispatchOutcome → Bool
  | .ok _ => false
  | .platformRejected _ => false
  | _ => true

/-- Modelled from the spec: a ScheduledPost as the core sees it. -/
structure Post where
  id : Nat
  content : String
  scheduled_time : Nat
  status : PostStatus
  error_detail : Option String
  published_at : Option Nat
deriving DecidableEq, Repr

/-- Modelled from the spec: dispatching to one target account within a pass.
resp gives the platform response to each successive attempt; budget bounds
the attempts this pass may make; k is the current attempt index.  Attempts
continue through retryable failures and stop at the first terminal outcome
(success or platform rejection) or when the budget runs out. -/
def runTarget (resp : Nat → DispatchOutcome) : Nat → Nat → List DispatchOutcome
  | 0, _ => []
  | budget + 1, k =>
    let o := resp k
    if o.retryable then o :: runTarget resp budget (k + 1) else [o]

/-- Modelled from the spec: per-target terminal classification after a pass.
A target succeeded if some attempt returned Ok; it permanently failed if a
non-retryable rejection occurred or the capped attempt count was exhausted;
otherwise it is still pending for a later pass. -/
inductive TargetResult where
  | success
  | permanent
  | pending
deriving DecidableEq, Repr

/-- Modelled from the spec: classify the attempt trace of one target against
the per-target attempt cap. -/
def classifyTrace (cap : Nat) (attempts : List DispatchOutcome) : TargetResult :=
  if attempts.any DispatchOutcome.isOk then TargetResult.success
  else if attempts.any DispatchOutcome.isRejected || cap ≤ attempts.length then
    TargetResult.permanent
  else TargetResult.pending

/-- Modelled from the spec: post-level status aggregation after a pass —
published only if all targets succeeded, failed if some target permanently
failed, otherwise the post remains publishing. -/
def postStatusAfterPass (rs : List TargetResult) : PostStatus :=
  if rs.all (fun r => r == TargetResult.success) then PostStatus.published
  else if rs.any (fun r => r == TargetResult.permanent) then PostStatus.failed
  else PostStatus.publishing

/-- Modelled from the spec: one target of a post within a pass — its platform
response behaviour and the attempt budget remaining for it this pass. -/
structure TargetDispatch where
  resp : Nat → DispatchOutcome
  budget : Nat

/-- Modelled from the spec: the attempt traces a pass produces, one per target. -/
def passTraces (ts : List TargetDispatch) : List (List DispatchOutcome) :=
  ts.map (fun t => runTarget t.resp t.budget 0)

/-- Modelled from the spec: the post-level status a pass assigns. -/
def passStatus (cap : Nat) (ts : List TargetDispatch) : PostStatus :=
  postStatusAfterPass ((passTraces ts).map (classifyTrace cap))

/-! ## Execution Ledger, modelled from the spec -/

/-- Modelled from the spec: a DispatchAttempt ledger entry. -/
structure DispatchAttempt where
  postId : Nat
  account : Nat
  attemptNo : Nat
  outcome : DispatchOutcome
deriving DecidableEq, Repr

/-- Modelled from the spec: recording one attempt appends exactly one entry. -/
def recordAttempt (ledger : List DispatchAttempt) (a : DispatchAttempt) :
    List DispatchAttempt :=
  ledger ++ [a]

/-- Modelled from the spec: recording a batch of attempts, one by one. -/
def recordAll (ledger : List DispatchAttempt) (batch : List DispatchAttempt) :
    List DispatchAttempt :=
  batch.foldl recordAttempt ledger

/-- Modelled from the spec: the ledger entries one target trace contributes,
numbered from attempt 1. -/
def traceAttempts (postId account : Nat) (tr : List DispatchOutcome) :
    List DispatchAttempt :=
  tr.enum.map (fun p => ⟨postId, account, p.fst + 1, p.snd⟩)

/-- Modelled from the spec: all ledger entries a pass over a post produces. -/
def attemptsOfPass (postId : Nat) (ts : List TargetDispatch) :
    List DispatchAttempt :=
  ((passTraces ts).enum.map (fun p => traceAttempts postId p.fst p.snd)).flatten

/-! ## Atomic claim, modelled from the spec -/

/-- Modelled from the spec: the atomic compare-and-swap claim — transition
scheduled to publishing and report success, else leave the row unchanged
and report failure. -/
def claimPost (p : Post) : Bool × Post :=
  if p.status == PostStatus.scheduled then
    (true, { p with status := PostStatus.publishing })
  else (false, p)

/-- Modelled from the spec: n scheduler instances attempting the claim one
after another (any interleaving of atomic CAS steps sequentialises to this);
returns how many claims succeeded and the final row. -/
def runClaims : Nat → Post → Nat × Post
  | 0, p => (0, p)
  | n + 1, p =>
    let r := claimPost p
    let rest := runClaims n r.snd
    ((if r.fst then 1 else 0) + rest.fst, rest.snd)

/-- Modelled from the spec: selection predicate of the scheduler — a post is
due when scheduled_time has passed and status is still scheduled. -/
def dueForClaim (now : Nat) (p : Post) : Bool :=
  decide (p.scheduled_time ≤ now) && (p.status == PostStatus.scheduled)

/-- Modelled from the spec: the claim-and-dispatch cycle on one post — a post
that is not due is left untouched and produces no ledger entries. -/
def processPost (now cap : Nat) (dispatchOf : Nat → List TargetDispatch)
    (p : Post) : Post × List DispatchAttempt :=
  if dueForClaim now p then
    let ts := dispatchOf p.id
    ({ p with status := passStatus cap ts }, attemptsOfPass p.id ts)
  else (p, [])

/-! ## Engagement-based trigger with hysteresis, modelled from the spec -/

/-- Modelled from the spec: the hysteresis state machine of an
engagement_based rule.  The carried state records whether the last
observation was at or above the threshold; the rule fires exactly when the
current observation reaches the threshold while the state says below. -/
def engFires (T : Int) : Bool → List Int → List Bool
  | _, [] => []
  | above, v :: rest =>
    (decide (T ≤ v) && !above) :: engFires T (decide (T ≤ v)) rest

/-! ## Automation rule activation, modelled from the spec -/

/-- Modelled from the spec: the four trigger types. -/
inductive TriggerType where
  | time_based
  | content_based
  | engagement_based
  | hashtag_based
deriving DecidableEq, Repr

/-- Modelled from the spec: the trigger configuration shapes — schedule
expression, keyword set, metric threshold, hashtag set. -/
inductive TriggerConfig where
  | schedule (expr : String)
  | keywords (ws : List String)
  | threshold (metric : String) (value : Int)
  | hashtags (hs : List String)
deriving DecidableEq, Repr

/-- Modelled from the spec: validation of the configuration shape against
the trigger type; a mismatched or empty configuration is malformed. -/
def validTriggerConfig : TriggerType → TriggerConfig → Bool
  | TriggerType.time_based, TriggerConfig.schedule e => e != ""
  | TriggerType.content_based, TriggerConfig.keywords ws => !ws.isEmpty
  | TriggerType.engagement_based, TriggerConfig.threshold _ _ => true
  | TriggerType.hashtag_based, TriggerConfig.hashtags hs => !hs.isEmpty
  | _, _ => false

/-- Modelled from the spec: an AutomationRule as the core sees it. -/
structure Rule where
  name : String
  trigger_type : TriggerType
  trigger_config : TriggerConfig
  is_active : Bool
  last_executed : Option Nat
  execution_count : Nat
deriving DecidableEq, Repr

/-- Modelled from the spec: activation validates the configuration shape
against the trigger type first; a malformed rule is left unchanged. -/
def activateRule (r : Rule) : Rule :=
  if validTriggerConfig r.trigger_type r.trigger_config then
    { r with is_active := true }
  else r

/-- Modelled from the spec: the only mutation the rule engine applies to a
rule — updating last_executed and execution_count on a firing. -/
def markExecuted (now : Nat) (r : Rule) : Rule :=
  { r with last_executed := some now, execution_count := r.execution_count + 1 }

/-! ## Platform Adapter registry, modelled from the spec -/

/-- Modelled from the spec: an Adapter exposes one operation per capability,
each taking a normalized request and returning a typed DispatchOutcome. -/
structure Adapter where
  platform : String
  publish : String → DispatchOutcome
  like : String → DispatchOutcome
  comment : String → DispatchOutcome
  follow : String → DispatchOutcome
  share : String → DispatchOutcome

/-- Modelled from the spec: adapter_for resolves a platform identifier in
the registry, returning the adapter or NotFound (none). -/
def adapter_for (registry : List Adapter) (pid : String) : Option Adapter :=
  registry.find? (fun a => a.platform == pid)

/-- The platform identifiers the schema seeds the platforms table with. -/
def defaultPlatforms : List String :=
  ["twitter", "facebook", "instagram", "linkedin", "tiktok", "youtube"]

/-- Modelled from the spec: a capability result is structured — it is Ok
with a remote id or exactly one of the four typed failures AuthExpired,
RateLimited, PlatformRejected, Transient; there is no other shape. -/
def TypedAdapterOutcome (r : DispatchOutcome) : Prop :=
  (∃ rid, r = DispatchOutcome.ok rid) ∨
  r = DispatchOutcome.authExpired ∨
  (∃ n, r = DispatchOutcome.rateLimited n) ∨
  (∃ s, r = DispatchOutcome.platformRejected s) ∨
  (∃ s, r = DispatchOutcome.transient s)

/-- A concrete adapter used to instantiate the adapter contract. -/
def stubAdapter : Adapter :=
  ⟨"twitter", fun _ => DispatchOutcome.ok "t", fun _ => DispatchOutcome.ok "t",
   fun _ => DispatchOutcome.ok "t", fun _ => DispatchOutcome.ok "t",
   fun _ => DispatchOutcome.ok "t"⟩

/-! ## Theorems -/

/-- C1: the claim says the status field of a ScheduledPost ranges over the
five values scheduled, publishing, published, failed, cancelled, with the
claim transition scheduled to publishing.  The schema CHECK constraint on
scheduled_posts.status rejects the value publishing outright, so the claim
state of the designed state machine is unrepresentable in the database:
the code contradicts the design.  This theorem evaluates the embedded CHECK
at the failing input. -/
theorem scheduled_posts_check_rejects_publishing :
    scheduledPostStatusCheck "publishing" = false ∧
    "publishing" ∈ specScheduledPostStatuses := by
  constructor
  · rfl
  · simp [specScheduledPostStatuses]

/-- C9: the deleteUser handler of the account-manager page removes the entry
with the given id from the displayed list whenever the DELETE request
completes, for every HTTP response (the then-callback never inspects the
status, so 4xx and 5xx responses behave like 2xx), and the resulting list
contains no user with that id. -/
theorem delete_user_removes_entry_for_any_status :
    ∀ (r : HttpResponse) (users : List UiUser) (i : Nat),
      deleteUser (Except.ok r) users i = users.filter (fun u => u.id != i) ∧
      (deleteUser (Except.ok r) users i).all (fun u => u.id != i) = true := by
  intro r users i
  refine ⟨rfl, ?_⟩
  simp only [deleteUser, List.all_eq_true]
  intro u hu
  exact (List.mem_filter.mp hu).2

/-- C10: every UPDATE on one of the six tables carrying the
update_updated_at_column trigger stores the update time in the updated_at
column of the row, whatever the other columns of the incoming row are,
and alters no other column. -/
theorem updated_at_trigger_sets_now (table : String)
    (h : table ∈ updatedAtTriggerTables) (now : Nat) (new : DbRow) :
    (applyBeforeUpdateTrigger table now new).updated_at = now ∧
    (applyBeforeUpdateTrigger table now new).fields = new.fields := by
  unfold applyBeforeUpdateTrigger
  rw [if_pos h]
  exact ⟨rfl, rfl⟩

/-- Witness for C10: the users table carries the trigger, and an update at
time 42 stores 42 in updated_at. -/
theorem updated_at_trigger_sets_now_witness :
    "users" ∈ updatedAtTriggerTables ∧
    (applyBeforeUpdateTrigger "users" 42 ⟨[("email", "e")], 7⟩).updated_at = 42 := by
  refine ⟨by simp [updatedAtTriggerTables], ?_⟩
  exact (updated_at_trigger_sets_now "users" (by simp [updatedAtTriggerTables])
    42 ⟨[("email", "e")], 7⟩).1

/-- A trace classifies as success exactly when some attempt returned Ok. -/
lemma classifyTrace_eq_success_iff (cap : Nat) (tr : List DispatchOutcome) :
    classifyTrace cap tr = TargetResult.success ↔
      tr.any DispatchOutcome.isOk = true := by
  unfold classifyTrace
  split
  · simp_all
  · split <;> simp_all

/-- A trace classifies as permanent exactly when no attempt succeeded and a
platform rejection occurred or the attempt cap was exhausted. -/
lemma classifyTrace_eq_permanent_iff (cap : Nat) (tr : List DispatchOutcome) :
    classifyTrace cap tr = TargetResult.permanent ↔
      tr.any DispatchOutcome.isOk = false ∧
        (tr.any DispatchOutcome.isRejected = true ∨ cap ≤ tr.length) := by
  unfold classifyTrace
  split
  · simp_all
  · split <;> simp_all

/-- Status aggregation yields published exactly when every target succeeded. -/
lemma postStatusAfterPass_eq_published_iff (rs : List TargetResult) :
    postStatusAfterPass rs = PostStatus.published ↔
      ∀ r ∈ rs, r = TargetResult.success := by
  unfold postStatusAfterPass
  split
  · rename_i h
    simp only [List.all_eq_true, beq_iff_eq] at h
    exact iff_of_true rfl h
  · split <;> simp_all

/-- Status aggregation yields failed exactly when some target permanently
failed (a permanent target is never a success, so the all-success branch
cannot have been taken). -/
lemma postStatusAfterPass_eq_failed_iff (rs : List TargetResult) :
    postStatusAfterPass rs = PostStatus.failed ↔
      ∃ r ∈ rs, r = TargetResult.permanent := by
  unfold postStatusAfterPass
  split
  · rename_i h
    simp only [List.all_eq_true, beq_iff_eq] at h
    constructor
    · intro hc; cases hc
    · rintro ⟨r, hr, hperm⟩
      have := h r hr
      rw [hperm] at this
      cases this
  · split
    · rename_i h1 h2
      simp only [List.any_eq_true, beq_iff_eq] at h2
      simpa using h2
    · rename_i h1 h2
      simp only [List.any_eq_true, beq_iff_eq] at h2
      constructor
      · intro hc; cases hc
      · intro hc; exact absurd hc h2

/-- Status aggregation never leaves the pass-result range. -/
lemma postStatusAfterPass_cases (rs : List TargetResult) :
    postStatusAfterPass rs = PostStatus.published ∨
      postStatusAfterPass rs = PostStatus.failed ∨
      postStatusAfterPass rs = PostStatus.publishing := by
  unfold postStatusAfterPass
  split
  · exact Or.inl rfl
  · split
    · exact Or.inr (Or.inl rfl)
    · exact Or.inr (Or.inr rfl)

/-- C2: after a scheduling pass, the post-level status is published exactly
when every target trace contains a successful attempt; it is failed exactly
when some target trace has no success and either hit a platform rejection or
exhausted the attempt cap; and in every other case the status the pass
assigns is publishing (to be retried by a later pass). -/
theorem pass_status_spec (cap : Nat) (ts : List TargetDispatch) :
    (passStatus cap ts = PostStatus.published ↔
      ∀ tr ∈ passTraces ts, tr.any DispatchOutcome.isOk = true) ∧
    (passStatus cap ts = PostStatus.failed ↔
      ∃ tr ∈ passTraces ts, tr.any DispatchOutcome.isOk = false ∧
        (tr.any DispatchOutcome.isRejected = true ∨ cap ≤ tr.length)) ∧
    (passStatus cap ts = PostStatus.published ∨
      passStatus cap ts = PostStatus.failed ∨
      passStatus cap ts = PostStatus.publishing) := by
  unfold passStatus
  refine ⟨?_, ?_, postStatusAfterPass_cases _⟩
  · rw [postStatusAfterPass_eq_published_iff]
    constructor
    · intro h tr htr
      exact (classifyTrace_eq_success_iff cap tr).mp
        (h (classifyTrace cap tr) (List.mem_map_of_mem _ htr))
    · intro h r hr
      rcases List.mem_map.mp hr with ⟨tr, htr, rfl⟩
      exact (classifyTrace_eq_success_iff cap tr).mpr (h tr htr)
  · rw [postStatusAfterPass_eq_failed_iff]
    constructor
    · rintro ⟨r, hr, hperm⟩
      rcases List.mem_map.mp hr with ⟨tr, htr, rfl⟩
      exact ⟨tr, htr, (classifyTrace_eq_permanent_iff cap tr).mp hperm⟩
    · rintro ⟨tr, htr, hc⟩
      exact ⟨classifyTrace cap tr, List.mem_map_of_mem _ htr,
        (classifyTrace_eq_permanent_iff cap tr).mpr hc⟩

/-- Witness for C2: a single target answering Ok immediately yields a
published post. -/
theorem pass_status_spec_witness :
    passStatus 5 [⟨fun _ => DispatchOutcome.ok "a", 5⟩] = PostStatus.published :=
  (pass_status_spec 5 [⟨fun _ => DispatchOutcome.ok "a", 5⟩]).1.mpr (by decide)

/-- A claim attempt on a post that is not in the scheduled state fails and
leaves the row unchanged, however many instances retry it. -/
lemma runClaims_of_not_scheduled (n : Nat) (p : Post)
    (h : p.status ≠ PostStatus.scheduled) : runClaims n p = (0, p) := by
  induction n with
  | zero => rfl
  | succ n ih =>
    have hc : claimPost p = (false, p) := by
      simp [claimPost, h]
    simp [runClaims, hc, ih]

/-- C3: claiming a due post is exclusive — when any positive number of
scheduler instances execute the atomic compare-and-swap claim against the
same scheduled post, in any sequentialisation of the atomic steps, exactly
one claim succeeds and the post ends in the publishing state. -/
theorem claim_is_exclusive (p : Post) (h : p.status = PostStatus.scheduled)
    (n : Nat) (hn : 1 ≤ n) :
    (runClaims n p).fst = 1 ∧
    (runClaims n p).snd.status = PostStatus.publishing := by
  obtain ⟨m, rfl⟩ : ∃ m, n = m + 1 := ⟨n - 1, by omega⟩
  have hc : claimPost p = (true, { p with status := PostStatus.publishing }) := by
    simp [claimPost, h]
  have hns : ({ p with status := PostStatus.publishing } : Post).status ≠
      PostStatus.scheduled := by simp
  have hrest := runClaims_of_not_scheduled m _ hns
  simp [runClaims, hc, hrest]

/-- Witness for C3: two instances racing for one scheduled post produce
exactly one successful claim. -/
theorem claim_is_exclusive_witness :
    (⟨1, "hello", 10, PostStatus.scheduled, none, none⟩ : Post).status =
      PostStatus.scheduled ∧
    1 ≤ 2 ∧
    (runClaims 2 ⟨1, "hello", 10, PostStatus.scheduled, none, none⟩).fst = 1 :=
  ⟨rfl, by decide, (claim_is_exclusive _ rfl 2 (by decide)).1⟩

/-- Recording a batch of attempts appends them to the ledger in order. -/
lemma recordAll_eq_append (ledger batch : List DispatchAttempt) :
    recordAll ledger batch = ledger ++ batch := by
  induction batch generalizing ledger with
  | nil => simp [recordAll]
  | cons a rest ih =>
    have h := ih (recordAttempt ledger a)
    simp only [recordAll, List.foldl_cons] at h ⊢
    rw [h]
    simp [recordAttempt]

/-- C5: the ledger is append-only — recording a batch of attempts adds
exactly one record per attempt, the previously written records survive
unchanged as the prefix of the new ledger (never updated or deleted), and
the records a scheduling pass produces number exactly the attempts made,
one per dispatch attempt of every target. -/
theorem ledger_append_only (ledger batch : List DispatchAttempt)
    (postId : Nat) (ts : List TargetDispatch) :
    recordAll ledger batch = ledger ++ batch ∧
    (recordAll ledger batch).length = ledger.length + batch.length ∧
    (recordAll ledger batch).take ledger.length = ledger ∧
    (recordAll ledger (attemptsOfPass postId ts)).length =
      ledger.length + ((passTraces ts).map List.length).sum := by
  refine ⟨recordAll_eq_append _ _, ?_, ?_, ?_⟩
  · rw [recordAll_eq_append]; simp
  · rw [recordAll_eq_append]; exact List.take_left _ _
  · rw [recordAll_eq_append]
    simp only [List.length_append]
    congr 1
    unfold attemptsOfPass
    rw [List.length_flatten, List.map_map]
    have h1 : (List.length ∘ fun p : Nat × List DispatchOutcome =>
        traceAttempts postId p.fst p.snd) =
        (fun p : Nat × List DispatchOutcome => p.snd.length) := by
      funext p
      simp [traceAttempts]
    rw [h1]
    have h2 : (passTraces ts).enum.map
          (fun p : Nat × List DispatchOutcome => p.snd.length) =
        ((passTraces ts).enum.map Prod.snd).map List.length := by
      rw [List.map_map]
      rfl
    rw [h2, List.enum_map_snd]

/-- C7: re-running the claim-and-dispatch cycle on an already published post
is a no-op — the selection predicate does not select it, its record is
returned unchanged, and no DispatchAttempt is created for it. -/
theorem published_post_pass_is_noop (now cap : Nat)
    (d : Nat → List TargetDispatch) (p : Post)
    (h : p.status = PostStatus.published) :
    dueForClaim now p = false ∧
    (processPost now cap d p).fst = p ∧
    (processPost now cap d p).snd = [] := by
  have hd : dueForClaim now p = false := by
    simp [dueForClaim, h]
  refine ⟨hd, ?_, ?_⟩ <;> simp [processPost, hd]

/-- Witness for C7: a published post due long ago is still not selected. -/
theorem published_post_pass_is_noop_witness :
    (⟨2, "done", 0, PostStatus.published, none, some 5⟩ : Post).status =
      PostStatus.published ∧
    dueForClaim 100 ⟨2, "done", 0, PostStatus.published, none, some 5⟩ = false :=
  ⟨rfl, (published_post_pass_is_noop 100 5 (fun _ => []) _ rfl).1⟩

/-- The hysteresis state machine fires at position i exactly when the
observation there reaches the threshold while the previous observation
(or the initial state, at position 0) was below it. -/
lemma engFires_getD (T : Int) :
    ∀ (obs : List Int) (init : Bool) (i : Nat), i < obs.length →
      (engFires T init obs).getD i false =
        (decide (T ≤ obs.getD i 0) &&
          (if i = 0 then !init else decide (obs.getD (i - 1) 0 < T)))
  | [], _, i, h => absurd h (by simp)
  | v :: rest, init, 0, _ => by
      simp [engFires]
  | v :: rest, init, i + 1, h => by
      have ih := engFires_getD T rest (decide (T ≤ v)) i (by simpa using h)
      simp only [engFires, List.getD_cons_succ]
      rw [ih]
      cases i with
      | zero =>
          have hd : decide (v < T) = !decide (T ≤ v) := by
            rw [← decide_not]
            exact decide_eq_decide.mpr not_le.symm
          simp [hd]
      | succ k =>
          simp only [if_neg (Nat.succ_ne_zero k), Nat.add_sub_cancel,
            if_neg (Nat.succ_ne_zero (k + 1)), Nat.succ_sub_one,
            List.getD_cons_succ]

/-- C4: an engagement_based rule with threshold T fires exactly on upward
crossings of T — position i fires precisely when the observed metric is at
least T there and the previous observation (or the initial hysteresis
state) was below T — and in particular it never fires again on a
subsequent observation while the metric stays at or above T. -/
theorem engagement_fires_iff_upward_crossing (T : Int) (init : Bool)
    (obs : List Int) :
    (∀ i, i < obs.length →
      (engFires T init obs).getD i false =
        (decide (T ≤ obs.getD i 0) &&
          (if i = 0 then !init else decide (obs.getD (i - 1) 0 < T)))) ∧
    (∀ j, j + 1 < obs.length → T ≤ obs.getD j 0 →
      (engFires T init obs).getD (j + 1) false = false) := by
  refine ⟨engFires_getD T obs init, ?_⟩
  intro j hj hT
  have h2 : decide (obs.getD j 0 < T) = false :=
    decide_eq_false (not_lt.mpr hT)
  rw [engFires_getD T obs init (j + 1) hj, if_neg (Nat.succ_ne_zero j),
    Nat.add_sub_cancel, h2]
  simp

/-- Witness for C4: with threshold 5 over the trace 3, 7, 8, 2, 9 the rule
fires at position 1 (crossing from 3 up past 5) and stays silent at
position 2 (still above, no intervening drop). -/
theorem engagement_fires_iff_upward_crossing_witness :
    1 < ([3, 7, 8, 2, 9] : List Int).length ∧
    (engFires 5 false [3, 7, 8, 2, 9]).getD 1 false = true ∧
    (engFires 5 false [3, 7, 8, 2, 9]).getD 2 false = false := by
  refine ⟨by decide, ?_, ?_⟩
  · have h := (engagement_fires_iff_upward_crossing 5 false [3, 7, 8, 2, 9]).1
      1 (by decide)
    rw [h]
    decide
  · exact (engagement_fires_iff_upward_crossing 5 false [3, 7, 8, 2, 9]).2
      1 (by decide) (by decide)

/-- C6: the invariant that an active rule has a configuration whose shape
matches its trigger type is preserved by activation (which validates the
shape first and refuses to activate a malformed rule) and by the only
mutation the rule engine applies; a malformed rule is left entirely
unchanged by activation, so it never becomes active. -/
theorem active_rule_has_valid_config (r : Rule) (now : Nat)
    (h : r.is_active = true →
      validTriggerConfig r.trigger_type r.trigger_config = true) :
    ((activateRule r).is_active = true →
      validTriggerConfig (activateRule r).trigger_type
        (activateRule r).trigger_config = true) ∧
    ((markExecuted now r).is_active = true →
      validTriggerConfig (markExecuted now r).trigger_type
        (markExecuted now r).trigger_config = true) ∧
    (validTriggerConfig r.trigger_type r.trigger_config = false →
      activateRule r = r) := by
  refine ⟨?_, ?_, ?_⟩
  · unfold activateRule
    split
    · rename_i hv
      intro _
      simpa using hv
    · exact h
  · intro ha
    exact h ha
  · intro hv
    unfold activateRule
    rw [if_neg]
    simp [hv]

/-- Witness for C6: a time_based rule whose configuration is a keyword set
is malformed and activation leaves it inactive and unchanged. -/
theorem active_rule_has_valid_config_witness :
    validTriggerConfig TriggerType.time_based (TriggerConfig.keywords []) =
      false ∧
    activateRule
        ⟨"r", TriggerType.time_based, TriggerConfig.keywords [], false, none, 0⟩ =
      ⟨"r", TriggerType.time_based, TriggerConfig.keywords [], false, none, 0⟩ := by
  refine ⟨by decide, ?_⟩
  exact (active_rule_has_valid_config
    ⟨"r", TriggerType.time_based, TriggerConfig.keywords [], false, none, 0⟩
    0 (by simp)).2.2 (by decide)

/-- Every dispatch result has one of the five typed shapes. -/
lemma typedAdapterOutcome_total (r : DispatchOutcome) : TypedAdapterOutcome r := by
  cases r with
  | ok rid => exact Or.inl ⟨rid, rfl⟩
  | authExpired => exact Or.inr (Or.inl rfl)
  | rateLimited n => exact Or.inr (Or.inr (Or.inl ⟨n, rfl⟩))
  | platformRejected s => exact Or.inr (Or.inr (Or.inr (Or.inl ⟨s, rfl⟩)))
  | transient s => exact Or.inr (Or.inr (Or.inr (Or.inr ⟨s, rfl⟩)))

/-- C8: adapter resolution returns the registered adapter for the platform
identifier or none (NotFound) exactly when no adapter carries that
identifier; and each of the five capability operations — publish, like,
comment, follow, share — returns, for any normalized request, a value that
is Ok with a remote id or exactly one of the four typed failures: there is
no unstructured error case. -/
theorem adapter_contract (registry : List Adapter) (pid : String)
    (a : Adapter) (req : String) :
    ((adapter_for registry pid = none ∧
        ∀ b ∈ registry, (b.platform == pid) = false) ∨
      (∃ b, adapter_for registry pid = some b ∧ b ∈ registry ∧
        b.platform = pid)) ∧
    TypedAdapterOutcome (a.publish req) ∧
    TypedAdapterOutcome (a.like req) ∧
    TypedAdapterOutcome (a.comment req) ∧
    TypedAdapterOutcome (a.follow req) ∧
    TypedAdapterOutcome (a.share req) := by
  refine ⟨?_, typedAdapterOutcome_total _, typedAdapterOutcome_total _,
    typedAdapterOutcome_total _, typedAdapterOutcome_total _,
    typedAdapterOutcome_total _⟩
  unfold adapter_for
  cases hfind : registry.find? (fun b => b.platform == pid) with
  | none =>
      left
      refine ⟨rfl, ?_⟩
      intro b hb
      have := List.find?_eq_none.mp hfind b hb
      simpa using this
  | some b =>
      right
      refine ⟨b, rfl, List.mem_of_find?_eq_some hfind, ?_⟩
      have := List.find?_some hfind
      simpa using this

/-- Witness for C8: the contract instantiated at the empty registry, a
schema-seeded platform identifier, a concrete adapter and a concrete
request, covering all five capability operations. -/
theorem adapter_contract_witness :
    ((adapter_for [] "twitter" = none ∧
        ∀ b ∈ ([] : List Adapter), (b.platform == "twitter") = false) ∨
      (∃ b, adapter_for [] "twitter" = some b ∧ b ∈ ([] : List Adapter) ∧
        b.platform = "twitter")) ∧
    TypedAdapterOutcome (stubAdapter.publish "req") ∧
    TypedAdapterOutcome (stubAdapter.like "req") ∧
    TypedAdapterOutcome (stubAdapter.comment "req") ∧
    TypedAdapterOutcome (stubAdapter.follow "req") ∧
    TypedAdapterOutcome (stubAdapter.share "req") :=
  adapter_contract [] "twitter" stubAdapter "req"

end TeamSocial
